import Mathlib

/-!
Shallow embedding of the ironsegment-py binary container library
(src/ironsegment/binary1.py, src/ironsegment/model.py, src/ironsegment/xml.py).

Bytes are modelled as `List Nat` with each entry below 256.  Machine
integers are `Nat`; fallible Python code (raised exceptions) is modelled
with `Except Err`.  Floating point appears in exactly two places in the
source and both are modelled exactly:

* `FileWritable1._aligned_size` computes `int(math.ceil(size / 16.0) * 16)`
  on IEEE-754 doubles.  Conversion of an integer to a double rounds the
  integer to 53 significant bits (round to nearest, ties to even); dividing
  by `16.0` and multiplying an integral double by `16.0` are exact scalings
  by a power of two; `math.ceil` of a double is the exact ceiling of its
  rational value.  `round53` below implements the 53-bit rounding, so
  `alignedSize` is an exact model of `_aligned_size` for every input on
  which Python does not overflow (sizes below 2 ^ 1024).

* The samplers divide u8/u16/u32 element values by 256.0, 65536.0 or
  4294967296.0.  Every such element value is below 2 ^ 32 and hence exactly
  representable as a double, and division by a power of two is exact, so
  the results are modelled by exact rational division.
-/

inductive ImageSemantic where
  | DENOISE_RGB16
  | DENOISE_RGB8
  | DENOISE_RGBA16
  | DENOISE_RGBA8
  | DEPTH_16
  | DEPTH_32
  | MONOCHROME_LINES_8
  | OBJECT_ID_32
deriving DecidableEq, Repr

/-- Modelled from the spec: `pixel_size_for_semantic` is imported by
binary1.py from `ironsegment.model` but is absent from the source tree;
the spec's PixelSemantic table (section 3) gives the bytes-per-pixel of
each semantic. -/
def pixel_size_for_semantic : ImageSemantic → Nat
  | .DENOISE_RGB16 => 6
  | .DENOISE_RGB8 => 3
  | .DENOISE_RGBA16 => 8
  | .DENOISE_RGBA8 => 4
  | .DEPTH_16 => 2
  | .DEPTH_32 => 4
  | .MONOCHROME_LINES_8 => 1
  | .OBJECT_ID_32 => 4

/-- Errors raised by the Python source (all are ValueError / struct.error /
KeyError / numpy errors at runtime; the constructors record which raise
site produced them, following the distinct message texts). -/
inductive Err where
  | outOfBoundsX
  | outOfBoundsY
  | semanticMismatch
  | indexError
  | broadcastMismatch
  | truncated
  | badMagic
  | badVersion
  | missingManifest
  | idOutOfRange
  | noSuchImage
  | keyError
  | bufferSizeMismatch
deriving DecidableEq, Repr

instance {ε α : Type} [DecidableEq ε] [DecidableEq α] : DecidableEq (Except ε α) := fun a b =>
  match a, b with
  | .ok x, .ok y =>
      if h : x = y then isTrue (by rw [h]) else
        isFalse (by intro hc; injection hc; exact h (by assumption))
  | .ok _, .error _ => isFalse (by intro hc; cases hc)
  | .error _, .ok _ => isFalse (by intro hc; cases hc)
  | .error x, .error y =>
      if h : x = y then isTrue (by rw [h]) else
        isFalse (by intro hc; injection hc; exact h (by assumption))

/-!
Exact model of `FileWritable1._aligned_size`:

    def _aligned_size(size: int) -> int:
        return int(math.ceil(size / 16.0) * 16)
-/

/-- Number of low bits dropped when rounding `m` to 53 significant bits:
counts halvings until the value is below 2 ^ 53.  The fuel 2100 covers
every integer below 2 ^ 2153, far beyond the 2 ^ 1024 Python float
overflow bound. -/
def ulpExpAux : Nat → Nat → Nat
  | 0, _ => 0
  | fuel + 1, m => if m < 2 ^ 53 then 0 else ulpExpAux fuel (m / 2) + 1

/-- Round a natural number to 53 significant bits, ties to even: the value
of `float(n)` for a Python int `n` (below the overflow bound). -/
def round53 (n : Nat) : Nat :=
  if n < 2 ^ 53 then n
  else
    let e := ulpExpAux 2100 n
    let q := n / 2 ^ e
    let r := n % 2 ^ e
    let half := 2 ^ (e - 1)
    if r < half then q * 2 ^ e
    else if half < r then (q + 1) * 2 ^ e
    else if q % 2 = 0 then q * 2 ^ e
    else (q + 1) * 2 ^ e

/-- Model of `FileWritable1._aligned_size`.  `float(size)` is
`round53 size`; dividing that double by `16.0` is exact, and `math.ceil`
of the quotient is `(round53 size + 15) / 16` in natural division;
multiplying the resulting integer by `16.0` first converts it to a double
(`round53` again) and then scales exactly; `int` of the integral double is
exact. -/
def alignedSize (size : Nat) : Nat :=
  round53 ((round53 size + 15) / 16) * 16

theorem round53_of_lt {n : Nat} (h : n < 2 ^ 53) : round53 n = n := by
  unfold round53
  rw [if_pos h]

theorem alignedSize_eq {n : Nat} (h : n < 2 ^ 53) :
    alignedSize n = ((n + 15) / 16) * 16 := by
  have h2 : (n + 15) / 16 < 2 ^ 53 := by omega
  rw [alignedSize, round53_of_lt h, round53_of_lt h2]

/-- C4: the claim asserts `_aligned_size` computes `((n + 15) / 16) * 16`
exactly for every non-negative integer.  The code rounds through IEEE
doubles, so this holds only while the arithmetic stays exactly
representable; at `2 ^ 53 + 1` the float model returns `2 ^ 53`, which is
smaller than the input.  This is the amended claim: for every
`n < 2 ^ 53` the writer's alignment function returns `((n + 15) / 16) * 16`,
a multiple of 16 that is at least `n`. -/
theorem c4_alignedSize_small (n : Nat) (h : n < 2 ^ 53) :
    alignedSize n = ((n + 15) / 16) * 16 ∧
      16 ∣ alignedSize n ∧ n ≤ alignedSize n := by
  have he := alignedSize_eq h
  refine ⟨he, ?_, ?_⟩
  · rw [he]; exact dvd_mul_left 16 _
  · rw [he]; omega

theorem c4_witness :
    37 < 2 ^ 53 ∧
      (alignedSize 37 = ((37 + 15) / 16) * 16 ∧
        16 ∣ alignedSize 37 ∧ 37 ≤ alignedSize 37) :=
  ⟨by norm_num, c4_alignedSize_small 37 (by norm_num)⟩

theorem c4_counterexample :
    alignedSize (2 ^ 53 + 1) = 2 ^ 53 ∧
      alignedSize (2 ^ 53 + 1) < 2 ^ 53 + 1 ∧
      alignedSize (2 ^ 53 + 1) ≠ ((2 ^ 53 + 1 + 15) / 16) * 16 := by
  refine ⟨by decide, ?_, ?_⟩ <;> decide

/-!
Typed pixel views: class `ImageReadable1` of binary1.py.  The numpy array
`_data` is modelled as the list of the integer values of its typed
elements.  `pyIndex` models numpy integer indexing of a 1-d array
(negative indices count from the end, out of range raises IndexError);
`pySlice` models basic slicing (negative bounds count from the end, the
range is clamped, never raises).
-/

def pyIndexJ (n : Nat) (i : Int) : Int :=
  if i < 0 then (n : Int) + i else i

def pyIndex (data : List Nat) (i : Int) : Except Err Nat :=
  if 0 ≤ pyIndexJ data.length i then
    match data.get? (pyIndexJ data.length i).toNat with
    | some v => .ok v
    | none => .error .indexError
  else .error .indexError

def pySlice (data : List Nat) (a b : Int) : List Nat :=
  let n : Int := data.length
  let a2 : Int := if a < 0 then max (n + a) 0 else min a n
  let b2 : Int := if b < 0 then max (n + b) 0 else min b n
  (data.drop a2.toNat).take (b2.toNat - a2.toNat)

structure ImageReadable1 where
  semantic : ImageSemantic
  width : Nat
  height : Nat
  data : List Nat
deriving DecidableEq

/-- Model of `ImageReadable1.get_object_id`.  The two bounds checks raise
first (in source order), then the semantic is examined; `np.uint32(...)`
reduces the fetched value modulo 2 ^ 32. -/
def get_object_id (img : ImageReadable1) (x y : Int) : Except Err Nat :=
  if x ≥ (img.width : Int) then .error .outOfBoundsX
  else if y ≥ (img.height : Int) then .error .outOfBoundsY
  else if img.semantic = .OBJECT_ID_32 then
    match pyIndex img.data (y * img.width + x) with
    | .ok v => .ok (v % 4294967296)
    | .error e => .error e
  else .error .semanticMismatch

/-- Model of `ImageReadable1.get_rgb_float`.  `np.full(3, v)` followed by
`np.divide(_, D)` yields three copies of `v / D`; the slice branches map
`np.divide` over the (possibly shorter than 3) slice.  All divisions are
exact on doubles, hence modelled in `ℚ`. -/
def get_rgb_float (img : ImageReadable1) (x y : Int) : Except Err (List ℚ) :=
  if x ≥ (img.width : Int) then .error .outOfBoundsX
  else if y ≥ (img.height : Int) then .error .outOfBoundsY
  else
    match img.semantic with
    | .OBJECT_ID_32 =>
        match pyIndex img.data (y * img.width + x) with
        | .ok v => .ok [(v : ℚ) / 4294967296, (v : ℚ) / 4294967296, (v : ℚ) / 4294967296]
        | .error e => .error e
    | .DEPTH_16 =>
        match pyIndex img.data (y * img.width + x) with
        | .ok v => .ok [(v : ℚ) / 65536, (v : ℚ) / 65536, (v : ℚ) / 65536]
        | .error e => .error e
    | .DEPTH_32 =>
        match pyIndex img.data (y * img.width + x) with
        | .ok v => .ok [(v : ℚ) / 4294967296, (v : ℚ) / 4294967296, (v : ℚ) / 4294967296]
        | .error e => .error e
    | .DENOISE_RGB8 =>
        .ok ((pySlice img.data (y * img.width * 3 + x * 3) (y * img.width * 3 + x * 3 + 3)).map
          (fun (v : Nat) => (v : ℚ) / 256))
    | .DENOISE_RGBA8 =>
        .ok ((pySlice img.data (y * img.width * 4 + x * 4) (y * img.width * 4 + x * 4 + 3)).map
          (fun (v : Nat) => (v : ℚ) / 256))
    | .DENOISE_RGBA16 =>
        .ok ((pySlice img.data (y * img.width * 4 + x * 4) (y * img.width * 4 + x * 4 + 3)).map
          (fun (v : Nat) => (v : ℚ) / 65536))
    | .DENOISE_RGB16 =>
        .ok ((pySlice img.data (y * img.width * 3 + x * 3) (y * img.width * 3 + x * 3 + 3)).map
          (fun (v : Nat) => (v : ℚ) / 65536))
    | .MONOCHROME_LINES_8 =>
        match pyIndex img.data (y * img.width + x) with
        | .ok v => .ok [(v : ℚ) / 256, (v : ℚ) / 256, (v : ℚ) / 256]
        | .error e => .error e

/-- Model of `ImageReadable1.get_rgba_float`.  The DENOISE_RGB8 and
DENOISE_RGB16 branches assign a slice of 3 elements into `_out[0:3]`:
numpy broadcasting accepts source length 3 (elementwise) or 1 (repeated)
and raises otherwise, which the length-1 and wildcard cases model.  The
alpha slot is written as the divisor and then divided, yielding exactly 1. -/
def get_rgba_float (img : ImageReadable1) (x y : Int) : Except Err (List ℚ) :=
  if x ≥ (img.width : Int) then .error .outOfBoundsX
  else if y ≥ (img.height : Int) then .error .outOfBoundsY
  else
    match img.semantic with
    | .OBJECT_ID_32 =>
        match pyIndex img.data (y * img.width + x) with
        | .ok v => .ok [(v : ℚ) / 4294967296, (v : ℚ) / 4294967296, (v : ℚ) / 4294967296,
            (4294967296 : ℚ) / 4294967296]
        | .error e => .error e
    | .DEPTH_16 =>
        match pyIndex img.data (y * img.width + x) with
        | .ok v => .ok [(v : ℚ) / 65536, (v : ℚ) / 65536, (v : ℚ) / 65536,
            (65536 : ℚ) / 65536]
        | .error e => .error e
    | .DEPTH_32 =>
        match pyIndex img.data (y * img.width + x) with
        | .ok v => .ok [(v : ℚ) / 4294967296, (v : ℚ) / 4294967296, (v : ℚ) / 4294967296,
            (4294967296 : ℚ) / 4294967296]
        | .error e => .error e
    | .DENOISE_RGB8 =>
        match pySlice img.data (y * img.width * 3 + x * 3) (y * img.width * 3 + x * 3 + 3) with
        | [a, b, c] => .ok [(a : ℚ) / 256, (b : ℚ) / 256, (c : ℚ) / 256, (256 : ℚ) / 256]
        | [a] => .ok [(a : ℚ) / 256, (a : ℚ) / 256, (a : ℚ) / 256, (256 : ℚ) / 256]
        | _ => .error .broadcastMismatch
    | .DENOISE_RGBA8 =>
        .ok ((pySlice img.data (y * img.width * 4 + x * 4) (y * img.width * 4 + x * 4 + 4)).map
          (fun (v : Nat) => (v : ℚ) / 256))
    | .DENOISE_RGBA16 =>
        .ok ((pySlice img.data (y * img.width * 4 + x * 4) (y * img.width * 4 + x * 4 + 4)).map
          (fun (v : Nat) => (v : ℚ) / 65536))
    | .DENOISE_RGB16 =>
        match pySlice img.data (y * img.width * 3 + x * 3) (y * img.width * 3 + x * 3 + 3) with
        | [a, b, c] => .ok [(a : ℚ) / 65536, (b : ℚ) / 65536, (c : ℚ) / 65536, (65536 : ℚ) / 65536]
        | [a] => .ok [(a : ℚ) / 65536, (a : ℚ) / 65536, (a : ℚ) / 65536, (65536 : ℚ) / 65536]
        | _ => .error .broadcastMismatch
    | .MONOCHROME_LINES_8 =>
        match pyIndex img.data (y * img.width + x) with
        | .ok v => .ok [(v : ℚ) / 256, (v : ℚ) / 256, (v : ℚ) / 256, (256 : ℚ) / 256]
        | .error e => .error e

theorem pyIndexJ_of_nonneg {n : Nat} {i : Int} (h0 : 0 ≤ i) :
    pyIndexJ n i = i := by
  unfold pyIndexJ
  rw [if_neg (not_lt.mpr h0)]

theorem pyIndex_ok (data : List Nat) (i : Int) (h0 : 0 ≤ i)
    (hlt : i < (data.length : Int)) :
    ∃ v, pyIndex data i = .ok v ∧ v ∈ data ∧ data.get? i.toNat = some v := by
  have hn : i.toNat < data.length := by omega
  have hv : data.get? i.toNat = some (data.get ⟨i.toNat, hn⟩) :=
    List.get?_eq_get hn
  refine ⟨data.get ⟨i.toNat, hn⟩, ?_, List.get?_mem hv, hv⟩
  simp only [pyIndex, pyIndexJ_of_nonneg h0, if_pos h0, hv]

theorem pyIndex_error_eq (data : List Nat) (i : Int) (e : Err)
    (h : pyIndex data i = .error e) : e = .indexError := by
  unfold pyIndex at h
  split at h
  · split at h
    · cases h
    · cases h; rfl
  · cases h; rfl

theorem pySlice_spec (data : List Nat) (a b : Int) (h0 : 0 ≤ a)
    (hab : a ≤ b) (hk : b ≤ (data.length : Int)) :
    (pySlice data a b).length = (b - a).toNat ∧
      ∀ v ∈ pySlice data a b, v ∈ data := by
  have hnn : ¬ a < 0 := not_lt.mpr h0
  have hb0 : ¬ b < 0 := by omega
  have ha : min a (data.length : Int) = a := min_eq_left (by omega)
  have hb : min b (data.length : Int) = b := min_eq_left hk
  constructor
  · simp only [pySlice, if_neg hnn, if_neg hb0, ha, hb, List.length_take,
      List.length_drop]
    omega
  · intro v hv
    simp only [pySlice] at hv
    exact List.mem_of_mem_drop (List.mem_of_mem_take hv)

theorem stride_index_bound (w h : Nat) (x y : Int) (k : Nat) (hx0 : 0 ≤ x)
    (hx : x < (w : Int)) (hy0 : 0 ≤ y) (hy : y < (h : Int)) :
    0 ≤ y * w * k + x * k ∧
      y * w * k + x * k + k ≤ ((w * h * k : Nat) : Int) := by
  have hw0 : (0 : Int) ≤ (w : Int) := Int.natCast_nonneg w
  have hk0 : (0 : Int) ≤ (k : Int) := Int.natCast_nonneg k
  constructor
  · have h1 : (0 : Int) ≤ y * w * k := by positivity
    have h2 : (0 : Int) ≤ x * k := by positivity
    omega
  · have h1 : y + 1 ≤ (h : Int) := by omega
    have h3 : y * w + x + 1 ≤ (w : Int) * h := by
      have h6 : (y + 1) * w ≤ (h : Int) * w :=
        mul_le_mul_of_nonneg_right h1 hw0
      nlinarith
    have h8 : (y * w + x + 1) * k ≤ ((w : Int) * h) * k :=
      mul_le_mul_of_nonneg_right h3 hk0
    push_cast
    nlinarith

/-- C5 counterexample: the claim says `get_object_id` reports
SemanticMismatch for every coordinate pair on a non-OBJECT_ID_32 view,
out-of-bounds ones included, because it claims the semantic check runs
first.  On a 1-by-1 DEPTH_16 view at (1, 0) the code raises the X bounds
error instead: the bounds checks run first. -/
theorem c5_counterexample :
    get_object_id ⟨.DEPTH_16, 1, 1, [0]⟩ 1 0 = .error .outOfBoundsX ∧
      Err.outOfBoundsX ≠ Err.semanticMismatch := by
  exact ⟨by decide, by decide⟩

/-- C5 amended: on a view whose semantic is not OBJECT_ID_32,
`get_object_id` fails with SemanticMismatch for every coordinate pair that
passes the bounds checks, i.e. whenever `x < width` and `y < height`
(negative coordinates included); the bounds checks are decided before the
semantic check, not after. -/
theorem c5_semantic_mismatch (img : ImageReadable1) (x y : Int)
    (hs : img.semantic ≠ .OBJECT_ID_32)
    (hx : x < (img.width : Int)) (hy : y < (img.height : Int)) :
    get_object_id img x y = .error .semanticMismatch := by
  unfold get_object_id
  rw [if_neg (not_le.mpr hx), if_neg (not_le.mpr hy), if_neg hs]

theorem c5_witness :
    (ImageSemantic.DEPTH_16 ≠ ImageSemantic.OBJECT_ID_32) ∧
      ((0 : Int) < ((1 : Nat) : Int)) ∧
      get_object_id ⟨.DEPTH_16, 1, 1, [7]⟩ 0 0 = .error .semanticMismatch :=
  ⟨by decide, by decide,
    c5_semantic_mismatch ⟨.DEPTH_16, 1, 1, [7]⟩ 0 0 (by decide)
      (by decide) (by decide)⟩

/-- Elements of the typed array per pixel, read off the index arithmetic
of the sampler branches: stride 3 for the RGB semantics, 4 for the RGBA
semantics, 1 for the single-element semantics. -/
def elemsPerPixel : ImageSemantic → Nat
  | .DENOISE_RGB16 => 3
  | .DENOISE_RGB8 => 3
  | .DENOISE_RGBA16 => 4
  | .DENOISE_RGBA8 => 4
  | .DEPTH_16 => 1
  | .DEPTH_32 => 1
  | .MONOCHROME_LINES_8 => 1
  | .OBJECT_ID_32 => 1

/-- Exclusive upper bound of an element value, read off the numpy dtype
each semantic is decoded with in `FileReadable1.image_data` (u8, u16 or
u32 big-endian). -/
def elemBound : ImageSemantic → Nat
  | .DENOISE_RGB16 => 65536
  | .DENOISE_RGB8 => 256
  | .DENOISE_RGBA16 => 65536
  | .DENOISE_RGBA8 => 256
  | .DEPTH_16 => 65536
  | .DEPTH_32 => 4294967296
  | .MONOCHROME_LINES_8 => 256
  | .OBJECT_ID_32 => 4294967296

/-- Normalisation divisor of each sampler branch, read off the literal
each branch of `get_rgb_float` / `get_rgba_float` divides by. -/
def divisorFor : ImageSemantic → ℚ
  | .DENOISE_RGB16 => 65536
  | .DENOISE_RGB8 => 256
  | .DENOISE_RGBA16 => 65536
  | .DENOISE_RGBA8 => 256
  | .DEPTH_16 => 65536
  | .DEPTH_32 => 4294967296
  | .MONOCHROME_LINES_8 => 256
  | .OBJECT_ID_32 => 4294967296

/-- True exactly for the semantics that carry an alpha channel of their
own; for all others `get_rgba_float` synthesises the alpha component. -/
def hasAlpha : ImageSemantic → Bool
  | .DENOISE_RGBA16 => true
  | .DENOISE_RGBA8 => true
  | _ => false

theorem q_entry_spec {data : List Nat} {v : Nat} {D : ℚ} (hD : 0 < D)
    (hmem : v ∈ data) (hv : (v : ℚ) < D) :
    0 ≤ (v : ℚ) / D ∧ (v : ℚ) / D ≤ 1 ∧
      ∃ u ∈ data, (v : ℚ) / D = (u : ℚ) / D := by
  refine ⟨div_nonneg (by positivity) hD.le, ?_, ⟨v, hmem, rfl⟩⟩
  rw [div_le_one hD]
  exact hv.le

theorem rgbmap_spec {data sl : List Nat} {D : ℚ} (hD : 0 < D)
    (hsub : ∀ v ∈ sl, v ∈ data) (hb : ∀ v ∈ data, (v : ℚ) < D) :
    ∀ q ∈ sl.map (fun (v : Nat) => (v : ℚ) / D),
      0 ≤ q ∧ q ≤ 1 ∧ ∃ u ∈ data, q = (u : ℚ) / D := by
  intro q hq
  obtain ⟨u, hu, hqe⟩ := List.mem_map.mp hq
  subst hqe
  exact q_entry_spec hD (hsub u hu) (hb u (hsub u hu))

theorem index_bound_one (w h : Nat) (x y : Int) (hx0 : 0 ≤ x)
    (hx : x < (w : Int)) (hy0 : 0 ≤ y) (hy : y < (h : Int)) :
    0 ≤ y * w + x ∧ y * w + x < ((w * h : Nat) : Int) := by
  have hw0 : (0 : Int) ≤ (w : Int) := Int.natCast_nonneg w
  constructor
  · have h1 : (0 : Int) ≤ y * w := mul_nonneg hy0 hw0
    omega
  · have h1 : y + 1 ≤ (h : Int) := by omega
    have h6 : (y + 1) * w ≤ (h : Int) * w := mul_le_mul_of_nonneg_right h1 hw0
    push_cast
    nlinarith

/-- C6: for every semantic, every view over a buffer of exactly
`width * height * elemsPerPixel` typed elements each within the dtype
bound, and every in-bounds non-negative coordinate pair, `get_rgb_float`
returns exactly 3 components and `get_rgba_float` exactly 4, each in
`[0, 1]`; every colour component is a raw element divided by the
semantic's power-of-two divisor, and for the semantics without an alpha
channel the synthesised alpha component equals exactly 1. -/
theorem c6_samplers_normalized (img : ImageReadable1) (x y : Int)
    (hlen : img.data.length = img.width * img.height * elemsPerPixel img.semantic)
    (hbound : ∀ v ∈ img.data, v < elemBound img.semantic)
    (hx0 : 0 ≤ x) (hx : x < (img.width : Int))
    (hy0 : 0 ≤ y) (hy : y < (img.height : Int)) :
    (∃ l, get_rgb_float img x y = .ok l ∧ l.length = 3 ∧
        ∀ q ∈ l, 0 ≤ q ∧ q ≤ 1 ∧
          ∃ v ∈ img.data, q = (v : ℚ) / divisorFor img.semantic) ∧
    (∃ l, get_rgba_float img x y = .ok l ∧ l.length = 4 ∧
        (∀ q ∈ l, 0 ≤ q ∧ q ≤ 1 ∧
          ((∃ v ∈ img.data, q = (v : ℚ) / divisorFor img.semantic) ∨ q = 1)) ∧
        (hasAlpha img.semantic = false → l.getLast? = some 1)) := by
  obtain ⟨S, w, h, data⟩ := img
  dsimp only at hlen hbound hx hy ⊢
  cases S
  case OBJECT_ID_32 =>
    simp only [divisorFor, hasAlpha, elemBound] at hbound ⊢
    simp only [elemsPerPixel, mul_one] at hlen
    obtain ⟨hi0, hi1⟩ := index_bound_one w h x y hx0 hx hy0 hy
    have hilt : y * (w : Int) + x < (data.length : Int) := by rw [hlen]; exact hi1
    obtain ⟨v, hok, hmem, hget⟩ := pyIndex_ok data (y * w + x) hi0 hilt
    have hD : (0 : ℚ) < 4294967296 := by norm_num
    have hv : (v : ℚ) < 4294967296 := by exact_mod_cast hbound v hmem
    have hone : (4294967296 : ℚ) / 4294967296 = 1 := by norm_num
    constructor
    · have hrgb : get_rgb_float ⟨.OBJECT_ID_32, w, h, data⟩ x y =
          .ok [(v : ℚ) / 4294967296, (v : ℚ) / 4294967296, (v : ℚ) / 4294967296] := by
        simp only [get_rgb_float]
        rw [if_neg (not_le.mpr hx), if_neg (not_le.mpr hy), hok]
      refine ⟨_, hrgb, rfl, ?_⟩
      intro q hq
      simp only [List.mem_cons, List.not_mem_nil, or_false] at hq
      rcases hq with rfl | rfl | rfl <;> exact q_entry_spec hD hmem hv
    · have hrgba : get_rgba_float ⟨.OBJECT_ID_32, w, h, data⟩ x y =
          .ok [(v : ℚ) / 4294967296, (v : ℚ) / 4294967296, (v : ℚ) / 4294967296,
            (4294967296 : ℚ) / 4294967296] := by
        simp only [get_rgba_float]
        rw [if_neg (not_le.mpr hx), if_neg (not_le.mpr hy), hok]
      refine ⟨_, hrgba, rfl, ?_, ?_⟩
      · intro q hq
        simp only [List.mem_cons, List.not_mem_nil, or_false] at hq
        rcases hq with rfl | rfl | rfl | rfl
        · obtain ⟨h1, h2, h3⟩ := q_entry_spec hD hmem hv; exact ⟨h1, h2, Or.inl h3⟩
        · obtain ⟨h1, h2, h3⟩ := q_entry_spec hD hmem hv; exact ⟨h1, h2, Or.inl h3⟩
        · obtain ⟨h1, h2, h3⟩ := q_entry_spec hD hmem hv; exact ⟨h1, h2, Or.inl h3⟩
        · rw [hone]; exact ⟨by norm_num, by norm_num, Or.inr rfl⟩
      · intro _
        rw [hone]
        rfl
  case DEPTH_16 =>
    simp only [divisorFor, hasAlpha, elemBound] at hbound ⊢
    simp only [elemsPerPixel, mul_one] at hlen
    obtain ⟨hi0, hi1⟩ := index_bound_one w h x y hx0 hx hy0 hy
    have hilt : y * (w : Int) + x < (data.length : Int) := by rw [hlen]; exact hi1
    obtain ⟨v, hok, hmem, hget⟩ := pyIndex_ok data (y * w + x) hi0 hilt
    have hD : (0 : ℚ) < 65536 := by norm_num
    have hv : (v : ℚ) < 65536 := by exact_mod_cast hbound v hmem
    have hone : (65536 : ℚ) / 65536 = 1 := by norm_num
    constructor
    · have hrgb : get_rgb_float ⟨.DEPTH_16, w, h, data⟩ x y =
          .ok [(v : ℚ) / 65536, (v : ℚ) / 65536, (v : ℚ) / 65536] := by
        simp only [get_rgb_float]
        rw [if_neg (not_le.mpr hx), if_neg (not_le.mpr hy), hok]
      refine ⟨_, hrgb, rfl, ?_⟩
      intro q hq
      simp only [List.mem_cons, List.not_mem_nil, or_false] at hq
      rcases hq with rfl | rfl | rfl <;> exact q_entry_spec hD hmem hv
    · have hrgba : get_rgba_float ⟨.DEPTH_16, w, h, data⟩ x y =
          .ok [(v : ℚ) / 65536, (v : ℚ) / 65536, (v : ℚ) / 65536,
            (65536 : ℚ) / 65536] := by
        simp only [get_rgba_float]
        rw [if_neg (not_le.mpr hx), if_neg (not_le.mpr hy), hok]
      refine ⟨_, hrgba, rfl, ?_, ?_⟩
      · intro q hq
        simp only [List.mem_cons, List.not_mem_nil, or_false] at hq
        rcases hq with rfl | rfl | rfl | rfl
        · obtain ⟨h1, h2, h3⟩ := q_entry_spec hD hmem hv; exact ⟨h1, h2, Or.inl h3⟩
        · obtain ⟨h1, h2, h3⟩ := q_entry_spec hD hmem hv; exact ⟨h1, h2, Or.inl h3⟩
        · obtain ⟨h1, h2, h3⟩ := q_entry_spec hD hmem hv; exact ⟨h1, h2, Or.inl h3⟩
        · rw [hone]; exact ⟨by norm_num, by norm_num, Or.inr rfl⟩
      · intro _
        rw [hone]
        rfl
  case DEPTH_32 =>
    simp only [divisorFor, hasAlpha, elemBound] at hbound ⊢
    simp only [elemsPerPixel, mul_one] at hlen
    obtain ⟨hi0, hi1⟩ := index_bound_one w h x y hx0 hx hy0 hy
    have hilt : y * (w : Int) + x < (data.length : Int) := by rw [hlen]; exact hi1
    obtain ⟨v, hok, hmem, hget⟩ := pyIndex_ok data (y * w + x) hi0 hilt
    have hD : (0 : ℚ) < 4294967296 := by norm_num
    have hv : (v : ℚ) < 4294967296 := by exact_mod_cast hbound v hmem
    have hone : (4294967296 : ℚ) / 4294967296 = 1 := by norm_num
    constructor
    · have hrgb : get_rgb_float ⟨.DEPTH_32, w, h, data⟩ x y =
          .ok [(v : ℚ) / 4294967296, (v : ℚ) / 4294967296, (v : ℚ) / 4294967296] := by
        simp only [get_rgb_float]
        rw [if_neg (not_le.mpr hx), if_neg (not_le.mpr hy), hok]
      refine ⟨_, hrgb, rfl, ?_⟩
      intro q hq
      simp only [List.mem_cons, List.not_mem_nil, or_false] at hq
      rcases hq with rfl | rfl | rfl <;> exact q_entry_spec hD hmem hv
    · have hrgba : get_rgba_float ⟨.DEPTH_32, w, h, data⟩ x y =
          .ok [(v : ℚ) / 4294967296, (v : ℚ) / 4294967296, (v : ℚ) / 4294967296,
            (4294967296 : ℚ) / 4294967296] := by
        simp only [get_rgba_float]
        rw [if_neg (not_le.mpr hx), if_neg (not_le.mpr hy), hok]
      refine ⟨_, hrgba, rfl, ?_, ?_⟩
      · intro q hq
        simp only [List.mem_cons, List.not_mem_nil, or_false] at hq
        rcases hq with rfl | rfl | rfl | rfl
        · obtain ⟨h1, h2, h3⟩ := q_entry_spec hD hmem hv; exact ⟨h1, h2, Or.inl h3⟩
        · obtain ⟨h1, h2, h3⟩ := q_entry_spec hD hmem hv; exact ⟨h1, h2, Or.inl h3⟩
        · obtain ⟨h1, h2, h3⟩ := q_entry_spec hD hmem hv; exact ⟨h1, h2, Or.inl h3⟩
        · rw [hone]; exact ⟨by norm_num, by norm_num, Or.inr rfl⟩
      · intro _
        rw [hone]
        rfl
  case MONOCHROME_LINES_8 =>
    simp only [divisorFor, hasAlpha, elemBound] at hbound ⊢
    simp only [elemsPerPixel, mul_one] at hlen
    obtain ⟨hi0, hi1⟩ := index_bound_one w h x y hx0 hx hy0 hy
    have hilt : y * (w : Int) + x < (data.length : Int) := by rw [hlen]; exact hi1
    obtain ⟨v, hok, hmem, hget⟩ := pyIndex_ok data (y * w + x) hi0 hilt
    have hD : (0 : ℚ) < 256 := by norm_num
    have hv : (v : ℚ) < 256 := by exact_mod_cast hbound v hmem
    have hone : (256 : ℚ) / 256 = 1 := by norm_num
    constructor
    · have hrgb : get_rgb_float ⟨.MONOCHROME_LINES_8, w, h, data⟩ x y =
          .ok [(v : ℚ) / 256, (v : ℚ) / 256, (v : ℚ) / 256] := by
        simp only [get_rgb_float]
        rw [if_neg (not_le.mpr hx), if_neg (not_le.mpr hy), hok]
      refine ⟨_, hrgb, rfl, ?_⟩
      intro q hq
      simp only [List.mem_cons, List.not_mem_nil, or_false] at hq
      rcases hq with rfl | rfl | rfl <;> exact q_entry_spec hD hmem hv
    · have hrgba : get_rgba_float ⟨.MONOCHROME_LINES_8, w, h, data⟩ x y =
          .ok [(v : ℚ) / 256, (v : ℚ) / 256, (v : ℚ) / 256, (256 : ℚ) / 256] := by
        simp only [get_rgba_float]
        rw [if_neg (not_le.mpr hx), if_neg (not_le.mpr hy), hok]
      refine ⟨_, hrgba, rfl, ?_, ?_⟩
      · intro q hq
        simp only [List.mem_cons, List.not_mem_nil, or_false] at hq
        rcases hq with rfl | rfl | rfl | rfl
        · obtain ⟨h1, h2, h3⟩ := q_entry_spec hD hmem hv; exact ⟨h1, h2, Or.inl h3⟩
        · obtain ⟨h1, h2, h3⟩ := q_entry_spec hD hmem hv; exact ⟨h1, h2, Or.inl h3⟩
        · obtain ⟨h1, h2, h3⟩ := q_entry_spec hD hmem hv; exact ⟨h1, h2, Or.inl h3⟩
        · rw [hone]; exact ⟨by norm_num, by norm_num, Or.inr rfl⟩
      · intro _
        rw [hone]
        rfl
  case DENOISE_RGB8 =>
    simp only [divisorFor, hasAlpha, elemBound] at hbound ⊢
    simp only [elemsPerPixel] at hlen
    have hD : (0 : ℚ) < 256 := by norm_num
    have hbq : ∀ v ∈ data, (v : ℚ) < 256 := fun v hv => by exact_mod_cast hbound v hv
    have hone : (256 : ℚ) / 256 = 1 := by norm_num
    obtain ⟨hi0, hi1⟩ := stride_index_bound w h x y 3 hx0 hx hy0 hy
    push_cast at hi0 hi1
    have hlenI : (data.length : Int) = (w : Int) * h * 3 := by rw [hlen]; push_cast; ring
    obtain ⟨hslen, hsub⟩ := pySlice_spec data (y * (w : Int) * 3 + x * 3)
      (y * (w : Int) * 3 + x * 3 + 3) hi0 (by linarith) (by rw [hlenI]; linarith)
    have hlen3 : (pySlice data (y * (w : Int) * 3 + x * 3)
        (y * (w : Int) * 3 + x * 3 + 3)).length = 3 := by rw [hslen]; omega
    constructor
    · have hrgb : get_rgb_float ⟨.DENOISE_RGB8, w, h, data⟩ x y =
          .ok ((pySlice data (y * (w : Int) * 3 + x * 3)
            (y * (w : Int) * 3 + x * 3 + 3)).map (fun (v : Nat) => (v : ℚ) / 256)) := by
        simp only [get_rgb_float]
        rw [if_neg (not_le.mpr hx), if_neg (not_le.mpr hy)]
      exact ⟨_, hrgb, by rw [List.length_map, hlen3], rgbmap_spec hD hsub hbq⟩
    · obtain ⟨a, b, c, habc⟩ := List.length_eq_three.mp hlen3
      have ha : a ∈ data := hsub a (by rw [habc]; simp)
      have hb : b ∈ data := hsub b (by rw [habc]; simp)
      have hc : c ∈ data := hsub c (by rw [habc]; simp)
      have hrgba : get_rgba_float ⟨.DENOISE_RGB8, w, h, data⟩ x y =
          .ok [(a : ℚ) / 256, (b : ℚ) / 256, (c : ℚ) / 256, (256 : ℚ) / 256] := by
        simp only [get_rgba_float]
        rw [if_neg (not_le.mpr hx), if_neg (not_le.mpr hy), habc]
      refine ⟨_, hrgba, rfl, ?_, ?_⟩
      · intro q hq
        simp only [List.mem_cons, List.not_mem_nil, or_false] at hq
        rcases hq with rfl | rfl | rfl | rfl
        · obtain ⟨h1, h2, h3⟩ := q_entry_spec hD ha (hbq a ha); exact ⟨h1, h2, Or.inl h3⟩
        · obtain ⟨h1, h2, h3⟩ := q_entry_spec hD hb (hbq b hb); exact ⟨h1, h2, Or.inl h3⟩
        · obtain ⟨h1, h2, h3⟩ := q_entry_spec hD hc (hbq c hc); exact ⟨h1, h2, Or.inl h3⟩
        · rw [hone]; exact ⟨by norm_num, by norm_num, Or.inr rfl⟩
      · intro _
        rw [hone]
        rfl
  case DENOISE_RGB16 =>
    simp only [divisorFor, hasAlpha, elemBound] at hbound ⊢
    simp only [elemsPerPixel] at hlen
    have hD : (0 : ℚ) < 65536 := by norm_num
    have hbq : ∀ v ∈ data, (v : ℚ) < 65536 := fun v hv => by exact_mod_cast hbound v hv
    have hone : (65536 : ℚ) / 65536 = 1 := by norm_num
    obtain ⟨hi0, hi1⟩ := stride_index_bound w h x y 3 hx0 hx hy0 hy
    push_cast at hi0 hi1
    have hlenI : (data.length : Int) = (w : Int) * h * 3 := by rw [hlen]; push_cast; ring
    obtain ⟨hslen, hsub⟩ := pySlice_spec data (y * (w : Int) * 3 + x * 3)
      (y * (w : Int) * 3 + x * 3 + 3) hi0 (by linarith) (by rw [hlenI]; linarith)
    have hlen3 : (pySlice data (y * (w : Int) * 3 + x * 3)
        (y * (w : Int) * 3 + x * 3 + 3)).length = 3 := by rw [hslen]; omega
    constructor
    · have hrgb : get_rgb_float ⟨.DENOISE_RGB16, w, h, data⟩ x y =
          .ok ((pySlice data (y * (w : Int) * 3 + x * 3)
            (y * (w : Int) * 3 + x * 3 + 3)).map (fun (v : Nat) => (v : ℚ) / 65536)) := by
        simp only [get_rgb_float]
        rw [if_neg (not_le.mpr hx), if_neg (not_le.mpr hy)]
      exact ⟨_, hrgb, by rw [List.length_map, hlen3], rgbmap_spec hD hsub hbq⟩
    · obtain ⟨a, b, c, habc⟩ := List.length_eq_three.mp hlen3
      have ha : a ∈ data := hsub a (by rw [habc]; simp)
      have hb : b ∈ data := hsub b (by rw [habc]; simp)
      have hc : c ∈ data := hsub c (by rw [habc]; simp)
      have hrgba : get_rgba_float ⟨.DENOISE_RGB16, w, h, data⟩ x y =
          .ok [(a : ℚ) / 65536, (b : ℚ) / 65536, (c : ℚ) / 65536, (65536 : ℚ) / 65536] := by
        simp only [get_rgba_float]
        rw [if_neg (not_le.mpr hx), if_neg (not_le.mpr hy), habc]
      refine ⟨_, hrgba, rfl, ?_, ?_⟩
      · intro q hq
        simp only [List.mem_cons, List.not_mem_nil, or_false] at hq
        rcases hq with rfl | rfl | rfl | rfl
        · obtain ⟨h1, h2, h3⟩ := q_entry_spec hD ha (hbq a ha); exact ⟨h1, h2, Or.inl h3⟩
        · obtain ⟨h1, h2, h3⟩ := q_entry_spec hD hb (hbq b hb); exact ⟨h1, h2, Or.inl h3⟩
        · obtain ⟨h1, h2, h3⟩ := q_entry_spec hD hc (hbq c hc); exact ⟨h1, h2, Or.inl h3⟩
        · rw [hone]; exact ⟨by norm_num, by norm_num, Or.inr rfl⟩
      · intro _
        rw [hone]
        rfl
  case DENOISE_RGBA8 =>
    simp only [divisorFor, hasAlpha, elemBound] at hbound ⊢
    simp only [elemsPerPixel] at hlen
    have hD : (0 : ℚ) < 256 := by norm_num
    have hbq : ∀ v ∈ data, (v : ℚ) < 256 := fun v hv => by exact_mod_cast hbound v hv
    obtain ⟨hi0, hi1⟩ := stride_index_bound w h x y 4 hx0 hx hy0 hy
    push_cast at hi0 hi1
    have hlenI : (data.length : Int) = (w : Int) * h * 4 := by rw [hlen]; push_cast; ring
    obtain ⟨hslen3, hsub3⟩ := pySlice_spec data (y * (w : Int) * 4 + x * 4)
      (y * (w : Int) * 4 + x * 4 + 3) hi0 (by linarith) (by rw [hlenI]; linarith)
    obtain ⟨hslen4, hsub4⟩ := pySlice_spec data (y * (w : Int) * 4 + x * 4)
      (y * (w : Int) * 4 + x * 4 + 4) hi0 (by linarith) (by rw [hlenI]; linarith)
    have hlen3 : (pySlice data (y * (w : Int) * 4 + x * 4)
        (y * (w : Int) * 4 + x * 4 + 3)).length = 3 := by rw [hslen3]; omega
    have hlen4 : (pySlice data (y * (w : Int) * 4 + x * 4)
        (y * (w : Int) * 4 + x * 4 + 4)).length = 4 := by rw [hslen4]; omega
    constructor
    · have hrgb : get_rgb_float ⟨.DENOISE_RGBA8, w, h, data⟩ x y =
          .ok ((pySlice data (y * (w : Int) * 4 + x * 4)
            (y * (w : Int) * 4 + x * 4 + 3)).map (fun (v : Nat) => (v : ℚ) / 256)) := by
        simp only [get_rgb_float]
        rw [if_neg (not_le.mpr hx), if_neg (not_le.mpr hy)]
      exact ⟨_, hrgb, by rw [List.length_map, hlen3], rgbmap_spec hD hsub3 hbq⟩
    · have hrgba : get_rgba_float ⟨.DENOISE_RGBA8, w, h, data⟩ x y =
          .ok ((pySlice data (y * (w : Int) * 4 + x * 4)
            (y * (w : Int) * 4 + x * 4 + 4)).map (fun (v : Nat) => (v : ℚ) / 256)) := by
        simp only [get_rgba_float]
        rw [if_neg (not_le.mpr hx), if_neg (not_le.mpr hy)]
      refine ⟨_, hrgba, by rw [List.length_map, hlen4], ?_, ?_⟩
      · intro q hq
        obtain ⟨h1, h2, h3⟩ := rgbmap_spec hD hsub4 hbq q hq
        exact ⟨h1, h2, Or.inl h3⟩
      · intro hc
        exact Bool.noConfusion hc
  case DENOISE_RGBA16 =>
    simp only [divisorFor, hasAlpha, elemBound] at hbound ⊢
    simp only [elemsPerPixel] at hlen
    have hD : (0 : ℚ) < 65536 := by norm_num
    have hbq : ∀ v ∈ data, (v : ℚ) < 65536 := fun v hv => by exact_mod_cast hbound v hv
    obtain ⟨hi0, hi1⟩ := stride_index_bound w h x y 4 hx0 hx hy0 hy
    push_cast at hi0 hi1
    have hlenI : (data.length : Int) = (w : Int) * h * 4 := by rw [hlen]; push_cast; ring
    obtain ⟨hslen3, hsub3⟩ := pySlice_spec data (y * (w : Int) * 4 + x * 4)
      (y * (w : Int) * 4 + x * 4 + 3) hi0 (by linarith) (by rw [hlenI]; linarith)
    obtain ⟨hslen4, hsub4⟩ := pySlice_spec data (y * (w : Int) * 4 + x * 4)
      (y * (w : Int) * 4 + x * 4 + 4) hi0 (by linarith) (by rw [hlenI]; linarith)
    have hlen3 : (pySlice data (y * (w : Int) * 4 + x * 4)
        (y * (w : Int) * 4 + x * 4 + 3)).length = 3 := by rw [hslen3]; omega
    have hlen4 : (pySlice data (y * (w : Int) * 4 + x * 4)
        (y * (w : Int) * 4 + x * 4 + 4)).length = 4 := by rw [hslen4]; omega
    constructor
    · have hrgb : get_rgb_float ⟨.DENOISE_RGBA16, w, h, data⟩ x y =
          .ok ((pySlice data (y * (w : Int) * 4 + x * 4)
            (y * (w : Int) * 4 + x * 4 + 3)).map (fun (v : Nat) => (v : ℚ) / 65536)) := by
        simp only [get_rgb_float]
        rw [if_neg (not_le.mpr hx), if_neg (not_le.mpr hy)]
      exact ⟨_, hrgb, by rw [List.length_map, hlen3], rgbmap_spec hD hsub3 hbq⟩
    · have hrgba : get_rgba_float ⟨.DENOISE_RGBA16, w, h, data⟩ x y =
          .ok ((pySlice data (y * (w : Int) * 4 + x * 4)
            (y * (w : Int) * 4 + x * 4 + 4)).map (fun (v : Nat) => (v : ℚ) / 65536)) := by
        simp only [get_rgba_float]
        rw [if_neg (not_le.mpr hx), if_neg (not_le.mpr hy)]
      refine ⟨_, hrgba, by rw [List.length_map, hlen4], ?_, ?_⟩
      · intro q hq
        obtain ⟨h1, h2, h3⟩ := rgbmap_spec hD hsub4 hbq q hq
        exact ⟨h1, h2, Or.inl h3⟩
      · intro hc
        exact Bool.noConfusion hc

theorem c6_witness :
    (([10, 20, 30] : List Nat).length =
        1 * 1 * elemsPerPixel ImageSemantic.DENOISE_RGB8) ∧
      (∀ v ∈ ([10, 20, 30] : List Nat), v < elemBound ImageSemantic.DENOISE_RGB8) ∧
      ((∃ l, get_rgb_float ⟨.DENOISE_RGB8, 1, 1, [10, 20, 30]⟩ 0 0 = .ok l ∧
          l.length = 3 ∧
          ∀ q ∈ l, 0 ≤ q ∧ q ≤ 1 ∧
            ∃ v ∈ ([10, 20, 30] : List Nat),
              q = (v : ℚ) / divisorFor ImageSemantic.DENOISE_RGB8) ∧
        (∃ l, get_rgba_float ⟨.DENOISE_RGB8, 1, 1, [10, 20, 30]⟩ 0 0 = .ok l ∧
          l.length = 4 ∧
          (∀ q ∈ l, 0 ≤ q ∧ q ≤ 1 ∧
            ((∃ v ∈ ([10, 20, 30] : List Nat),
                q = (v : ℚ) / divisorFor ImageSemantic.DENOISE_RGB8) ∨ q = 1)) ∧
          (hasAlpha ImageSemantic.DENOISE_RGB8 = false → l.getLast? = some 1))) :=
  ⟨by decide, by decide,
    c6_samplers_normalized ⟨.DENOISE_RGB8, 1, 1, [10, 20, 30]⟩ 0 0 (by decide)
      (by decide) (by decide) (by decide) (by decide) (by decide)⟩

/-- True exactly on the two out-of-bounds errors of the samplers. -/
def isOOBErr {α : Type} : Except Err α → Bool
  | .error .outOfBoundsX => true
  | .error .outOfBoundsY => true
  | _ => false

theorem get_object_id_not_oob (img : ImageReadable1) (x y : Int)
    (hx : x < (img.width : Int)) (hy : y < (img.height : Int)) :
    isOOBErr (get_object_id img x y) = false := by
  obtain ⟨S, w, h, data⟩ := img
  dsimp only at hx hy ⊢
  simp only [get_object_id]
  rw [if_neg (not_le.mpr hx), if_neg (not_le.mpr hy)]
  by_cases hS : S = ImageSemantic.OBJECT_ID_32
  · rw [if_pos hS]
    rcases hp : pyIndex data (y * (w : Int) + x) with e | v
    · have he := pyIndex_error_eq _ _ _ hp
      subst he
      rfl
    · rfl
  · rw [if_neg hS]
    rfl

theorem get_rgb_float_not_oob (img : ImageReadable1) (x y : Int)
    (hx : x < (img.width : Int)) (hy : y < (img.height : Int)) :
    isOOBErr (get_rgb_float img x y) = false := by
  obtain ⟨S, w, h, data⟩ := img
  dsimp only at hx hy ⊢
  cases S <;> simp only [get_rgb_float] <;>
    rw [if_neg (not_le.mpr hx), if_neg (not_le.mpr hy)]
  case OBJECT_ID_32 =>
    rcases hp : pyIndex data (y * (w : Int) + x) with e | v
    · have he := pyIndex_error_eq _ _ _ hp; subst he; rfl
    · rfl
  case DEPTH_16 =>
    rcases hp : pyIndex data (y * (w : Int) + x) with e | v
    · have he := pyIndex_error_eq _ _ _ hp; subst he; rfl
    · rfl
  case DEPTH_32 =>
    rcases hp : pyIndex data (y * (w : Int) + x) with e | v
    · have he := pyIndex_error_eq _ _ _ hp; subst he; rfl
    · rfl
  case MONOCHROME_LINES_8 =>
    rcases hp : pyIndex data (y * (w : Int) + x) with e | v
    · have he := pyIndex_error_eq _ _ _ hp; subst he; rfl
    · rfl
  case DENOISE_RGB8 => rfl
  case DENOISE_RGB16 => rfl
  case DENOISE_RGBA8 => rfl
  case DENOISE_RGBA16 => rfl

theorem get_rgba_float_not_oob (img : ImageReadable1) (x y : Int)
    (hx : x < (img.width : Int)) (hy : y < (img.height : Int)) :
    isOOBErr (get_rgba_float img x y) = false := by
  obtain ⟨S, w, h, data⟩ := img
  dsimp only at hx hy ⊢
  cases S <;> simp only [get_rgba_float] <;>
    rw [if_neg (not_le.mpr hx), if_neg (not_le.mpr hy)]
  case OBJECT_ID_32 =>
    rcases hp : pyIndex data (y * (w : Int) + x) with e | v
    · have he := pyIndex_error_eq _ _ _ hp; subst he; rfl
    · rfl
  case DEPTH_16 =>
    rcases hp : pyIndex data (y * (w : Int) + x) with e | v
    · have he := pyIndex_error_eq _ _ _ hp; subst he; rfl
    · rfl
  case DEPTH_32 =>
    rcases hp : pyIndex data (y * (w : Int) + x) with e | v
    · have he := pyIndex_error_eq _ _ _ hp; subst he; rfl
    · rfl
  case MONOCHROME_LINES_8 =>
    rcases hp : pyIndex data (y * (w : Int) + x) with e | v
    · have he := pyIndex_error_eq _ _ _ hp; subst he; rfl
    · rfl
  case DENOISE_RGB8 =>
    rcases pySlice data (y * (w : Int) * 3 + x * 3) (y * (w : Int) * 3 + x * 3 + 3) with
      _ | ⟨a, _ | ⟨b, _ | ⟨c, _ | ⟨d, t⟩⟩⟩⟩ <;> rfl
  case DENOISE_RGB16 =>
    rcases pySlice data (y * (w : Int) * 3 + x * 3) (y * (w : Int) * 3 + x * 3 + 3) with
      _ | ⟨a, _ | ⟨b, _ | ⟨c, _ | ⟨d, t⟩⟩⟩⟩ <;> rfl
  case DENOISE_RGBA8 => rfl
  case DENOISE_RGBA16 => rfl

theorem pyIndex_neg_ok (data : List Nat) (x : Int) (hx : x < 0)
    (h0 : 0 ≤ (data.length : Int) + x) :
    ∃ v, data.get? ((data.length : Int) + x).toNat = some v ∧
      pyIndex data x = .ok v := by
  have hj : pyIndexJ data.length x = (data.length : Int) + x := by
    unfold pyIndexJ
    rw [if_pos hx]
  have hlt : ((data.length : Int) + x).toNat < data.length := by omega
  have hv : data.get? ((data.length : Int) + x).toNat =
      some (data.get ⟨((data.length : Int) + x).toNat, hlt⟩) :=
    List.get?_eq_get hlt
  refine ⟨_, hv, ?_⟩
  simp only [pyIndex, hj, if_pos h0, hv]

/-- C9: negative coordinates are not rejected: for `-width ≤ x < 0` and
`y = 0` (on a non-empty image) none of the three samplers reports an
out-of-bounds error, because only `x ≥ width` and `y ≥ height` are
checked; on an OBJECT_ID_32 view the fetched element is the one indexed
from the end of the underlying array, at position `length + x`. -/
theorem c9_negative_coords (img : ImageReadable1) (x : Int)
    (hxl : -(img.width : Int) ≤ x) (hx : x < 0) (hh : 0 < img.height) :
    isOOBErr (get_rgb_float img x 0) = false ∧
      isOOBErr (get_rgba_float img x 0) = false ∧
      isOOBErr (get_object_id img x 0) = false ∧
      (img.semantic = .OBJECT_ID_32 →
        img.data.length = img.width * img.height →
        ∃ v, img.data.get? ((img.data.length : Int) + x).toNat = some v ∧
          get_object_id img x 0 = .ok (v % 4294967296)) := by
  have hxw : x < (img.width : Int) :=
    lt_of_lt_of_le hx (Int.natCast_nonneg _)
  have hy : (0 : Int) < (img.height : Int) := by exact_mod_cast hh
  refine ⟨get_rgb_float_not_oob img x 0 hxw hy,
    get_rgba_float_not_oob img x 0 hxw hy,
    get_object_id_not_oob img x 0 hxw hy, ?_⟩
  intro hS hlen
  have hwh : img.width ≤ img.width * img.height :=
    Nat.le_mul_of_pos_right img.width hh
  have h0 : 0 ≤ (img.data.length : Int) + x := by
    have : (img.width : Int) ≤ (img.data.length : Int) := by
      rw [hlen]; exact_mod_cast hwh
    omega
  obtain ⟨v, hget, hok⟩ := pyIndex_neg_ok img.data x hx h0
  refine ⟨v, hget, ?_⟩
  obtain ⟨S, w, h, data⟩ := img
  dsimp only at hS hxw hy hok hget ⊢
  subst hS
  simp only [get_object_id]
  rw [if_neg (not_le.mpr hxw), if_neg (not_le.mpr hy)]
  simp only [if_true]
  have hiz : (0 : Int) * (w : Int) + x = x := by ring
  rw [hiz, hok]

theorem c9_witness :
    (-(((2 : Nat)) : Int) ≤ -1) ∧ ((-1 : Int) < 0) ∧ ((0 : Nat) < 2) ∧
      (isOOBErr (get_rgb_float ⟨.OBJECT_ID_32, 2, 2, [5, 6, 7, 8]⟩ (-1) 0) = false ∧
        isOOBErr (get_rgba_float ⟨.OBJECT_ID_32, 2, 2, [5, 6, 7, 8]⟩ (-1) 0) = false ∧
        isOOBErr (get_object_id ⟨.OBJECT_ID_32, 2, 2, [5, 6, 7, 8]⟩ (-1) 0) = false ∧
        (ImageSemantic.OBJECT_ID_32 = ImageSemantic.OBJECT_ID_32 →
          ([5, 6, 7, 8] : List Nat).length = 2 * 2 →
          ∃ v, ([5, 6, 7, 8] : List Nat).get?
              (((([5, 6, 7, 8] : List Nat).length : Int)) + (-1)).toNat = some v ∧
            get_object_id ⟨.OBJECT_ID_32, 2, 2, [5, 6, 7, 8]⟩ (-1) 0 =
              .ok (v % 4294967296))) :=
  ⟨by decide, by decide, by decide,
    c9_negative_coords ⟨.OBJECT_ID_32, 2, 2, [5, 6, 7, 8]⟩ (-1) (by decide)
      (by decide) (by decide)⟩

/-!
Binary framing.  `beBytes k v` is `struct.pack` of `v` as a `k`-byte
big-endian integer (all values packed by the source fit their width);
`beVal` is the matching `struct.unpack`.  `readBytes mm a b` is the mmap
slice `mm[a:b]` for the non-negative offsets the source uses (Python
slicing clamps at the end of the buffer and never raises).
-/

def FILE_MAGIC_NUMBER : Nat := 0x894972530D0A1A0A

def SECTION_IDENTIFIER_MANIFEST : Nat := 0x4972535F4D4E4946

def SECTION_IDENTIFIER_END : Nat := 0x4972535F454E4421

def SECTION_IDENTIFIER_IMAGE : Nat := 0x4972535F494D4744

def beBytes : Nat → Nat → List Nat
  | 0, _ => []
  | k + 1, v => beBytes k (v / 256) ++ [v % 256]

def beVal (l : List Nat) : Nat :=
  l.foldl (fun acc b => acc * 256 + b) 0

def readBytes (mm : List Nat) (a b : Nat) : List Nat :=
  (mm.drop a).take (b - a)

theorem beBytes_length (k v : Nat) : (beBytes k v).length = k := by
  induction k generalizing v with
  | zero => rfl
  | succ k ih => simp [beBytes, ih]

theorem readBytes_length (mm : List Nat) (a b : Nat) :
    (readBytes mm a b).length = min (b - a) (mm.length - a) := by
  simp [readBytes]

/-!
Manifest records (ironsegment/model.py).  The `images` mapping of the
Python `Images` record stores `Image(identifier, semantic)` under the key
`identifier.value`; since the key always equals the stored identifier,
each entry is modelled as the pair (identifier value, semantic).  Objects
and metadata only matter to the XML codec.
-/

structure MImages where
  width : Nat
  height : Nat
  images : List (Nat × ImageSemantic)
deriving DecidableEq

structure MManifest where
  images : MImages
  objects : List (Nat × String)
  metadata : List (String × String)
deriving DecidableEq

/-- Ascending insertion by key: models iterating `sorted(mapping)` over
the keys of a Python dict (keys are distinct, so stability is moot). -/
def insertByKey {α : Type} (p : Nat × α) : List (Nat × α) → List (Nat × α)
  | [] => [p]
  | q :: rest =>
      if p.1 ≤ q.1 then p :: q :: rest else q :: insertByKey p rest

def sortByKey {α : Type} : List (Nat × α) → List (Nat × α)
  | [] => []
  | p :: rest => insertByKey p (sortByKey rest)

/-- Name of each semantic as produced by `ImageSemantic.name` in Python. -/
def semanticName : ImageSemantic → String
  | .DENOISE_RGB16 => "DENOISE_RGB16"
  | .DENOISE_RGB8 => "DENOISE_RGB8"
  | .DENOISE_RGBA16 => "DENOISE_RGBA16"
  | .DENOISE_RGBA8 => "DENOISE_RGBA8"
  | .DEPTH_16 => "DEPTH_16"
  | .DEPTH_32 => "DEPTH_32"
  | .MONOCHROME_LINES_8 => "MONOCHROME_LINES_8"
  | .OBJECT_ID_32 => "OBJECT_ID_32"

/-- Model of `serialize_manifest` (ironsegment/xml.py): the byte string
`etree.tostring` produces for the element tree the source builds.  The
default namespace is declared once on the root, attributes appear in the
keyword order of the `etree.Element` calls, children of Images/Objects
are emitted in ascending numeric ID order and Metadata in ascending name
order, and empty elements are self-closed.  Text content is taken as
ASCII without XML escaping (all uses below have empty object and
metadata tables). -/
def serializeImageXml (p : Nat × ImageSemantic) : String :=
  "<Image ID=\"" ++ toString p.1 ++ "\" Semantic=\"" ++ semanticName p.2 ++ "\"/>"

def serializeObjectXml (p : Nat × String) : String :=
  "<Object ID=\"" ++ toString p.1 ++ "\">" ++ p.2 ++ "</Object>"

def serializeMetaXml (p : String × String) : String :=
  "<Meta Name=\"" ++ p.1 ++ "\">" ++ p.2 ++ "</Meta>"

def sortByName (l : List (String × String)) : List (String × String) :=
  l.mergeSort (fun p q => p.1 ≤ q.1)

def serializeManifestXml (m : MManifest) : String :=
  "<Manifest xmlns=\"urn:com.io7m.ironsegment:manifest:1\">" ++
    "<Images Width=\"" ++ toString m.images.width ++ "\" Height=\"" ++
      toString m.images.height ++ "\">" ++
    String.join ((sortByKey m.images.images).map serializeImageXml) ++
    "</Images>" ++
    (if m.objects.isEmpty then "<Objects/>"
     else "<Objects>" ++
       String.join ((sortByKey m.objects).map serializeObjectXml) ++ "</Objects>") ++
    (if m.metadata.isEmpty then "<Metadata/>"
     else "<Metadata>" ++
       String.join ((sortByName m.metadata).map serializeMetaXml) ++ "</Metadata>") ++
    "</Manifest>"

/-- UTF-8 bytes of an ASCII string (every string built above is ASCII, so
the bytes are the character codes). -/
def strBytes (s : String) : List Nat :=
  s.data.map Char.toNat

/-!
Writer (class `FileWritable1`).  The file under construction is a byte
list together with the current file position; every write appends at the
end, so the position equals the byte count written so far (`f.tell()`
after a write).  `wzeros` models both `f.write(bytes(n))` and the loop
writing `aligned_size` single zero bytes.
-/

structure WFile where
  bytes : List Nat
  pos : Nat

def wwrite (f : WFile) (bs : List Nat) : WFile :=
  ⟨f.bytes ++ bs, f.pos + bs.length⟩

def wzeros (f : WFile) (n : Nat) : WFile :=
  ⟨f.bytes ++ List.replicate n 0, f.pos + n⟩

/-- The `ImageWritable1` records the writer returns. -/
structure WImage where
  semantic : ImageSemantic
  offset : Nat
  size : Nat
deriving DecidableEq

/-- Model of `FileWritable1.open_file`.  `section_data` is the output of
`serialize_manifest` (the XML collaborator), passed in as the writer
receives it.  Mirrors the source line by line: header (magic, major 1,
minor 0), MANIFEST section of aligned size with zero padding and no
length prefix, then for each image in ascending ImageID order an IMAGE
section header followed by `aligned_size` zero bytes, recording the
payload offset (`f.tell()` after the header) and the unaligned pixel
byte count, then an END section of size 0. -/
def open_file_write (section_data : List Nat) (m : MManifest) :
    WFile × List WImage :=
  let f0 : WFile := ⟨[], 0⟩
  let f1 := wwrite f0 (beBytes 8 FILE_MAGIC_NUMBER)
  let f2 := wwrite f1 (beBytes 4 1)
  let f3 := wwrite f2 (beBytes 4 0)
  let ssize := alignedSize section_data.length
  let f4 := wwrite f3 (beBytes 8 SECTION_IDENTIFIER_MANIFEST)
  let f5 := wwrite f4 (beBytes 8 ssize)
  let f6 := wwrite f5 section_data
  let f7 := wzeros f6 (ssize - section_data.length)
  let loop := (sortByKey m.images.images).foldl
    (fun (st : WFile × List WImage) p =>
      let size := pixel_size_for_semantic p.2
      let total_size := m.images.width * m.images.height * size
      let aligned_size := alignedSize total_size
      let fa := wwrite st.1 (beBytes 8 SECTION_IDENTIFIER_IMAGE)
      let fb := wwrite fa (beBytes 8 aligned_size)
      let offset := fb.pos
      let fc := wzeros fb aligned_size
      (fc, st.2 ++ [⟨p.2, offset, total_size⟩]))
    (f7, ([] : List WImage))
  let f8 := wwrite loop.1 (beBytes 8 SECTION_IDENTIFIER_END)
  let f9 := wwrite f8 (beBytes 8 0)
  (f9, loop.2)

/-!
Reader (class `FileReadable1` and the section classes).  A section record
keeps the kind the walker constructed (only MANIFEST, IMAGE and END
sections are ever constructed by the source), the file offset of the
section header and the size field; `data_offset` is `offset + 16`.
-/

inductive SKind where
  | manifest
  | image
  | end_
deriving DecidableEq, Repr

structure RSection where
  kind : SKind
  offset : Nat
  size : Nat
deriving DecidableEq, Repr

/-- Model of `FileReadable1.check_magic_number`: unpack a big-endian u64
at offset 0 (struct.error on a short buffer) and compare. -/
def check_magic (mm : List Nat) : Except Err Unit :=
  if (readBytes mm 0 8).length = 8 then
    if beVal (readBytes mm 0 8) = FILE_MAGIC_NUMBER then .ok ()
    else .error .badMagic
  else .error .truncated

/-- Model of `FileReadable1.check_version`: unpack the two u32 version
fields, require major = 1, return both. -/
def check_version (mm : List Nat) : Except Err (Nat × Nat) :=
  if (readBytes mm 8 12).length = 4 ∧ (readBytes mm 12 16).length = 4 then
    if beVal (readBytes mm 8 12) = 1 then
      .ok (beVal (readBytes mm 8 12), beVal (readBytes mm 12 16))
    else .error .badVersion
  else .error .truncated

/-- Model of the while loop of `FileReadable1.enumerate_sections`: read a
16-byte header at `offset`, construct and append a section record for the
three known kinds (tracking the last MANIFEST section seen), stop at END,
skip unknown kinds silently, and always advance by `16 + size`.  A short
header read raises struct.error.  The fuel only bounds the recursion; the
offset grows by at least 16 per step, so `mm.length + 1` steps are never
exhausted before a short read stops the loop. -/
def enumAux (mm : List Nat) :
    Nat → Nat → Option RSection → List RSection →
      Except Err (RSection × List RSection)
  | 0, _, _, _ => .error .truncated
  | fuel + 1, offset, mf, acc =>
    if (readBytes mm offset (offset + 8)).length = 8 ∧
        (readBytes mm (offset + 8) (offset + 16)).length = 8 then
      let section_type := beVal (readBytes mm offset (offset + 8))
      let section_size := beVal (readBytes mm (offset + 8) (offset + 16))
      if section_type = SECTION_IDENTIFIER_MANIFEST then
        enumAux mm fuel (offset + 16 + section_size)
          (some ⟨.manifest, offset, section_size⟩)
          (acc ++ [⟨.manifest, offset, section_size⟩])
      else if section_type = SECTION_IDENTIFIER_IMAGE then
        enumAux mm fuel (offset + 16 + section_size) mf
          (acc ++ [⟨.image, offset, section_size⟩])
      else if section_type = SECTION_IDENTIFIER_END then
        match mf with
        | some msec => .ok (msec, acc ++ [⟨.end_, offset, section_size⟩])
        | none => .error .missingManifest
      else enumAux mm fuel (offset + 16 + section_size) mf acc
    else .error .truncated

/-- Model of `FileReadable1.enumerate_sections`: walk from offset 16 and
return the manifest section and the section list (missing manifest is an
error, checked when END is reached). -/
def enumerate_sections (mm : List Nat) :
    Except Err (RSection × List RSection) :=
  enumAux mm (mm.length + 1) 16 none []

/-- Model of `FileReadableSection1Image.image_id`: unpack the big-endian
u32 at the section's data offset and construct an `ImageID`, whose
constructor (ironsegment/model.py) rejects values outside
`[1, 4294967295]`. -/
def sec_image_id (mm : List Nat) (s : RSection) : Except Err Nat :=
  if (readBytes mm (s.offset + 16) (s.offset + 16 + 4)).length = 4 then
    if 1 ≤ beVal (readBytes mm (s.offset + 16) (s.offset + 16 + 4)) ∧
        beVal (readBytes mm (s.offset + 16) (s.offset + 16 + 4)) ≤ 4294967295 then
      .ok (beVal (readBytes mm (s.offset + 16) (s.offset + 16 + 4)))
    else .error .idOutOfRange
  else .error .truncated

/-- Bytes `FileReadableSection1Manifest.manifest` hands to the XML parser:
a u32 payload length at the data offset, then that many bytes. -/
def manifestRaw (mm : List Nat) (s : RSection) : List Nat :=
  readBytes mm (s.offset + 16 + 4)
    (s.offset + 16 + 4 + beVal (readBytes mm (s.offset + 16) (s.offset + 16 + 4)))

/-- Reader state after a successful open: the mapping, the decoded
manifest record, and the section directory. -/
structure RState where
  mm : List Nat
  manifest : MManifest
  sections : List RSection

/-- Comparison step of `FileReadable1.image_section` for one IMAGE
section: an exception from `image_id()` propagates; a matching identifier
returns the section; otherwise the scan continues. -/
def image_id_step (iid : Nat) (s : RSection) (r : Except Err Nat)
    (cont : Except Err RSection) : Except Err RSection :=
  match r with
  | .ok v => if v = iid then .ok s else cont
  | .error e => .error e

/-- Loop of `FileReadable1.image_section`: scan sections in order; for
each IMAGE section read its embedded identifier and return the first
match; otherwise NotFound. -/
def image_section_go (mm : List Nat) (iid : Nat) :
    List RSection → Except Err RSection
  | [] => .error .noSuchImage
  | s :: rest =>
    if s.kind = .image then
      image_id_step iid s (sec_image_id mm s) (image_section_go mm iid rest)
    else image_section_go mm iid rest

def image_section (st : RState) (iid : Nat) : Except Err RSection :=
  image_section_go st.mm iid st.sections

/-- Decode a raw byte slice as big-endian elements of `es` bytes each
(`np.frombuffer` with dtype u8 / >u2 / >u4): fuel-structural chunking. -/
def beChunksAux : Nat → Nat → List Nat → List Nat
  | 0, _, _ => []
  | fuel + 1, es, l =>
      if l.isEmpty then []
      else beVal (l.take es) :: beChunksAux fuel es (l.drop es)

def beChunks (es : Nat) (l : List Nat) : List Nat :=
  beChunksAux l.length es l

/-- `np.frombuffer` raises when the buffer size is not a multiple of the
element size. -/
def frombuffer (es : Nat) (raw : List Nat) : Except Err (List Nat) :=
  if raw.length % es = 0 then .ok (beChunks es raw)
  else .error .bufferSizeMismatch

/-- Element size in bytes of the numpy dtype `image_data` chooses for
each semantic. -/
def elemSize : ImageSemantic → Nat
  | .DENOISE_RGB16 => 2
  | .DENOISE_RGB8 => 1
  | .DENOISE_RGBA16 => 2
  | .DENOISE_RGBA8 => 1
  | .DEPTH_16 => 2
  | .DEPTH_32 => 4
  | .MONOCHROME_LINES_8 => 1
  | .OBJECT_ID_32 => 4

/-- Model of `FileReadable1.image_data`: locate the section, look the
semantic up in the manifest (KeyError when absent), slice the mapping
from `data_offset + 4` for `section.size` bytes, and build the typed
view with the manifest's width and height. -/
def image_data (st : RState) (iid : Nat) : Except Err ImageReadable1 :=
  match image_section st iid with
  | .error e => .error e
  | .ok sec =>
    match List.lookup iid st.manifest.images.images with
    | none => .error .keyError
    | some semantic =>
      let a_start := sec.offset + 16 + 4
      let a_end := a_start + sec.size
      let raw := readBytes st.mm a_start a_end
      let w := st.manifest.images.width
      let h := st.manifest.images.height
      match frombuffer (elemSize semantic) raw with
      | .error e => .error e
      | .ok d => .ok ⟨semantic, w, h, d⟩

def manifest3 : MManifest :=
  ⟨⟨1024, 1024, [(1, .DENOISE_RGB8), (2, .DEPTH_16), (3, .OBJECT_ID_32)]⟩, [], []⟩

def xml3bytes : List Nat := strBytes (serializeManifestXml manifest3)

/-- C3 amended: opening the writer for the three-image manifest
(DENOISE_RGB8 id 1, DEPTH_16 id 2, OBJECT_ID_32 id 3) at 1024 by 1024
yields three writable images whose payload offsets are `48 + A`,
`3145792 + A` and `5242960 + A`, where `A` is the 16-aligned length of
the serialized manifest; with the lxml serialization (243 bytes, aligned
256) these are 304, 3146048 and 5243216 — not 1248, 2800 and 3840, which
arise only for a 512-pixel image (the test fixture's size). -/
theorem c3_offsets (sd : List Nat) (hL : sd.length < 2 ^ 53) :
    ((open_file_write sd manifest3).2.map WImage.offset) =
      [48 + ((sd.length + 15) / 16) * 16,
        3145792 + ((sd.length + 15) / 16) * 16,
        5242960 + ((sd.length + 15) / 16) * 16] ∧
      (open_file_write sd manifest3).2.length = 3 := by
  have hA := alignedSize_eq hL
  have h1 : alignedSize (1024 * 1024 * 3) = 3145728 := by
    rw [alignedSize_eq (by norm_num)]
  have h2 : alignedSize (1024 * 1024 * 2) = 2097152 := by
    rw [alignedSize_eq (by norm_num)]
  have h3 : alignedSize (1024 * 1024 * 4) = 4194304 := by
    rw [alignedSize_eq (by norm_num)]
  have hge : sd.length ≤ ((sd.length + 15) / 16) * 16 := by omega
  simp only [open_file_write, manifest3, sortByKey, insertByKey, wwrite, wzeros,
    beBytes_length, List.foldl, pixel_size_for_semantic, List.map, hA,
    List.length_cons, List.length_nil]
  norm_num [h1, h2, h3]
  omega

set_option maxRecDepth 40000 in
theorem c3_counterexample :
    ((open_file_write xml3bytes manifest3).2.map WImage.offset) =
        [304, 3146048, 5243216] ∧
      ((open_file_write xml3bytes manifest3).2.map WImage.offset) ≠
        [1248, 2800, 3840] := by
  constructor <;> decide

set_option maxRecDepth 40000 in
theorem c3_witness :
    xml3bytes.length < 2 ^ 53 ∧
      (((open_file_write xml3bytes manifest3).2.map WImage.offset) =
        [48 + ((xml3bytes.length + 15) / 16) * 16,
          3145792 + ((xml3bytes.length + 15) / 16) * 16,
          5242960 + ((xml3bytes.length + 15) / 16) * 16] ∧
        (open_file_write xml3bytes manifest3).2.length = 3) :=
  ⟨by decide, c3_offsets xml3bytes (by decide)⟩

def manifestC1 : MManifest := ⟨⟨2, 2, [(1, .DENOISE_RGBA8)]⟩, [], []⟩

def xmlC1bytes : List Nat := strBytes (serializeManifestXml manifestC1)

set_option maxRecDepth 100000 in
/-- C1: the claim (and the reader's contract) requires each IMAGE payload
to begin with the u32 big-endian image identifier followed by the pixel
bytes and zero padding, with the aligned size accounting for the 4-byte
prefix.  The writer violates this: for the manifest with one
DENOISE_RGBA8 image (id 1) at 2 by 2, the emitted IMAGE section has size
field `align16(w*h*bpp) = 16` (not `align16(4 + w*h*bpp) = 32`) and its
payload is 16 zero bytes — the first four decode to 0, not to the
image id 1. -/
theorem c1_writer_payload_lacks_image_id :
    ((open_file_write xmlC1bytes manifestC1).2.map (fun p => (p.offset, p.size))) =
        [(224, 16)] ∧
      readBytes (open_file_write xmlC1bytes manifestC1).1.bytes 224 228 =
        [0, 0, 0, 0] ∧
      beVal (readBytes (open_file_write xmlC1bytes manifestC1).1.bytes 224 228) = 0 ∧
      (0 : Nat) ≠ 1 ∧
      beVal (readBytes (open_file_write xmlC1bytes manifestC1).1.bytes 216 224) = 16 ∧
      alignedSize (4 + 2 * 2 * pixel_size_for_semantic .DENOISE_RGBA8) = 32 ∧
      (16 : Nat) ≠ 32 :=
  ⟨by decide, by decide, by decide, by decide, by decide, by decide, by decide⟩

def manifest1 : MManifest := ⟨⟨1, 1, [(1, .DENOISE_RGB8)]⟩, [], []⟩

def xml1bytes : List Nat := strBytes (serializeManifestXml manifest1)

def F1 : List Nat := (open_file_write xml1bytes manifest1).1.bytes

def secs1 : List RSection :=
  [⟨.manifest, 16, 176⟩, ⟨.image, 208, 16⟩, ⟨.end_, 240, 0⟩]

set_option maxRecDepth 400000 in
set_option maxHeartbeats 2000000 in
/-- C8: on the file the writer produces for a one-image manifest, the
header checks pass and the section walk does return 1 + N + 1 sections
with MANIFEST first and END last; but the claim that reopening succeeds
fails: the writer omits the u32 length prefix of the MANIFEST payload, so
the reader decodes the first four XML bytes ("<Man") as the payload
length 1011704174 and hands the XML parser a truncated slice that starts
at the fifth XML byte (not with an opening angle bracket), which cannot
parse, so `FileReadable1.open_file` raises. -/
theorem c8_writer_reader_mismatch :
    check_magic F1 = .ok () ∧
      check_version F1 = .ok (1, 0) ∧
      enumerate_sections F1 = .ok (⟨.manifest, 16, 176⟩, secs1) ∧
      secs1.length = 1 + 1 + 1 ∧
      secs1.head? = some ⟨.manifest, 16, 176⟩ ∧
      secs1.getLast? = some ⟨.end_, 240, 0⟩ ∧
      beVal (readBytes F1 32 36) = 1011704174 ∧
      xml1bytes.length = 163 ∧
      beVal (readBytes F1 32 36) ≠ xml1bytes.length ∧
      manifestRaw F1 ⟨.manifest, 16, 176⟩ ≠ xml1bytes ∧
      (manifestRaw F1 ⟨.manifest, 16, 176⟩).head? ≠ some 60 :=
  ⟨by decide, by decide, by decide, by decide, by decide, by decide, by decide,
    by decide, by decide, by decide, by decide⟩

def st1 : RState := ⟨F1, manifest1, secs1⟩

theorem image_section_go_skip (mm : List Nat) (iid : Nat) (s : RSection)
    (rest : List RSection) (h : ¬ s.kind = .image) :
    image_section_go mm iid (s :: rest) = image_section_go mm iid rest := by
  conv_lhs => unfold image_section_go
  rw [if_neg h]

theorem image_section_go_error (mm : List Nat) (iid : Nat) (s : RSection)
    (rest : List RSection) (e : Err) (h : s.kind = .image)
    (he : sec_image_id mm s = .error e) :
    image_section_go mm iid (s :: rest) = .error e := by
  conv_lhs => unfold image_section_go
  rw [if_pos h, he]
  simp only [image_id_step]

set_option maxRecDepth 400000 in
set_option maxHeartbeats 2000000 in
/-- C10: on a file freshly produced by the writer the IMAGE payloads are
all zero, so `image_id()` on the IMAGE section decodes 0, which the
`ImageID` constructor rejects (IdentifierOutOfRange); consequently
`image_section(id)` — which evaluates `image_id()` while scanning — and
`image_data(id)` fail with that error for every requested id. -/
theorem c10_written_ids_unreadable (iid : Nat) :
    enumerate_sections F1 = .ok (⟨.manifest, 16, 176⟩, secs1) ∧
      sec_image_id F1 ⟨.image, 208, 16⟩ = .error .idOutOfRange ∧
      image_section st1 iid = .error .idOutOfRange ∧
      image_data st1 iid = .error .idOutOfRange := by
  have hsid : sec_image_id F1 ⟨.image, 208, 16⟩ = .error .idOutOfRange := by decide
  have hsec : image_section st1 iid = .error .idOutOfRange := by
    show image_section_go F1 iid secs1 = .error .idOutOfRange
    rw [show secs1 =
        ⟨.manifest, 16, 176⟩ :: ⟨.image, 208, 16⟩ :: [⟨.end_, 240, 0⟩] from rfl,
      image_section_go_skip _ _ _ _ (by decide),
      image_section_go_error _ _ _ _ _ (by decide) hsid]
  refine ⟨by decide, hsid, hsec, ?_⟩
  unfold image_data
  rw [hsec]

/-!
A small conformant file for exercising the reader path: 1-by-1
DENOISE_RGB8 image with identifier 1.  Layout: header, MANIFEST section
of size 16 (payload unused by these theorems), IMAGE section of size 16
whose payload is the u32 identifier 1, three pixel bytes 9 9 9 and nine
zero padding bytes, then END.
-/
def F2 : List Nat :=
  beBytes 8 FILE_MAGIC_NUMBER ++ beBytes 4 1 ++ beBytes 4 0 ++
    beBytes 8 SECTION_IDENTIFIER_MANIFEST ++ beBytes 8 16 ++
    List.replicate 16 0 ++
    beBytes 8 SECTION_IDENTIFIER_IMAGE ++ beBytes 8 16 ++
    beBytes 4 1 ++ [9, 9, 9] ++ List.replicate 9 0 ++
    beBytes 8 SECTION_IDENTIFIER_END ++ beBytes 8 0

def manifestF2 : MManifest := ⟨⟨1, 1, [(1, .DENOISE_RGB8)]⟩, [], []⟩

def secsF2 : List RSection :=
  [⟨.manifest, 16, 16⟩, ⟨.image, 48, 16⟩, ⟨.end_, 80, 0⟩]

def stF2 : RState := ⟨F2, manifestF2, secsF2⟩

set_option maxRecDepth 40000 in
theorem c2_counterexample :
    enumerate_sections F2 = .ok (⟨.manifest, 16, 16⟩, secsF2) ∧
      ((image_data stF2 1).map (fun v => v.data.length)) = .ok 16 ∧
      1 * 1 * pixel_size_for_semantic .DENOISE_RGB8 = 3 ∧
      (16 : Nat) ≠ 3 :=
  ⟨by decide, by decide, by decide, by decide⟩

theorem beChunksAux_length {es : Nat} (hes : 0 < es) :
    ∀ fuel l, l.length ≤ fuel → es ∣ l.length →
      (beChunksAux fuel es l).length * es = l.length := by
  intro fuel
  induction fuel with
  | zero =>
    intro l hl _
    have hnil : l = [] := List.eq_nil_of_length_eq_zero (by omega)
    subst hnil
    simp [beChunksAux]
  | succ n ih =>
    intro l hl hd
    by_cases hnil : l.isEmpty
    · rw [List.isEmpty_iff] at hnil
      subst hnil
      simp [beChunksAux]
    · have hlp : 0 < l.length := by
        rcases l with _ | ⟨a, t⟩
        · exact absurd rfl hnil
        · simp
      have heslen : es ≤ l.length := Nat.le_of_dvd hlp hd
      have hdl : (l.drop es).length = l.length - es := List.length_drop es l
      have hih := ih (l.drop es) (by omega) (by rw [hdl]; exact Nat.dvd_sub' hd dvd_rfl)
      unfold beChunksAux
      rw [if_neg hnil, List.length_cons]
      rw [hdl] at hih
      have hx : ((beChunksAux n es (l.drop es)).length + 1) * es =
          (beChunksAux n es (l.drop es)).length * es + es := by ring
      omega

theorem beChunks_length (es : Nat) (l : List Nat) (hes : 0 < es)
    (hd : es ∣ l.length) : (beChunks es l).length * es = l.length :=
  beChunksAux_length hes l.length l le_rfl hd

/-- C2 amended: when `image_data` succeeds it builds the typed view over
the slice `[data_offset + 4, data_offset + 4 + section.size)` — the
stored (aligned) section size, not `width * height * bpp` — so the bytes
underlying the view number exactly `section.size` (the decoded element
count times the element size), which includes the zero padding and the 4
bytes that follow the section's payload in the file. -/
theorem c2_view_bytes (st : RState) (iid : Nat) (sec : RSection)
    (sem : ImageSemantic)
    (hsec : image_section st iid = .ok sec)
    (hsem : List.lookup iid st.manifest.images.images = some sem)
    (hfit : sec.offset + 20 + sec.size ≤ st.mm.length)
    (hdvd : elemSize sem ∣ sec.size) :
    ∃ view, image_data st iid = .ok view ∧
      view.data = beChunks (elemSize sem)
        (readBytes st.mm (sec.offset + 16 + 4) (sec.offset + 16 + 4 + sec.size)) ∧
      view.data.length * elemSize sem = sec.size := by
  have hes : 0 < elemSize sem := by cases sem <;> decide
  have hraw : (readBytes st.mm (sec.offset + 16 + 4)
      (sec.offset + 16 + 4 + sec.size)).length = sec.size := by
    rw [readBytes_length]
    omega
  have hfb : frombuffer (elemSize sem)
      (readBytes st.mm (sec.offset + 16 + 4) (sec.offset + 16 + 4 + sec.size)) =
        .ok (beChunks (elemSize sem)
          (readBytes st.mm (sec.offset + 16 + 4) (sec.offset + 16 + 4 + sec.size))) := by
    unfold frombuffer
    rw [if_pos]
    rw [hraw]
    omega
  unfold image_data
  rw [hsec, hsem]
  dsimp only
  rw [hfb]
  refine ⟨_, rfl, rfl, ?_⟩
  rw [beChunks_length _ _ hes (by rw [hraw]; exact hdvd), hraw]

set_option maxRecDepth 40000 in
theorem c2_witness :
    image_section stF2 1 = .ok ⟨.image, 48, 16⟩ ∧
      List.lookup 1 manifestF2.images.images = some .DENOISE_RGB8 ∧
      (48 : Nat) + 20 + 16 ≤ F2.length ∧
      elemSize .DENOISE_RGB8 ∣ 16 ∧
      ∃ view, image_data stF2 1 = .ok view ∧
        view.data = beChunks (elemSize .DENOISE_RGB8)
          (readBytes F2 (48 + 16 + 4) (48 + 16 + 4 + 16)) ∧
        view.data.length * elemSize .DENOISE_RGB8 = 16 :=
  ⟨by decide, by decide, by decide, by decide,
    c2_view_bytes stF2 1 ⟨.image, 48, 16⟩ .DENOISE_RGB8 (by decide) (by decide)
      (by decide) (by decide)⟩

/-!
A file containing a section of an unknown kind (0x1122334455667788)
between the MANIFEST and END sections: header, MANIFEST of size 0 at
offset 16, unknown section of size 16 at offset 32, END at offset 64.
-/
def F7 : List Nat :=
  beBytes 8 FILE_MAGIC_NUMBER ++ beBytes 4 1 ++ beBytes 4 0 ++
    beBytes 8 SECTION_IDENTIFIER_MANIFEST ++ beBytes 8 0 ++
    beBytes 8 0x1122334455667788 ++ beBytes 8 16 ++ List.replicate 16 7 ++
    beBytes 8 SECTION_IDENTIFIER_END ++ beBytes 8 0

set_option maxRecDepth 40000 in
theorem c7_counterexample :
    enumerate_sections F7 =
        .ok (⟨.manifest, 16, 0⟩, [⟨.manifest, 16, 0⟩, ⟨.end_, 64, 0⟩]) ∧
      ([(⟨.manifest, 16, 0⟩ : RSection), ⟨.end_, 64, 0⟩].length = 2) ∧
      ((2 : Nat) ≠ 3) ∧
      (([(⟨.manifest, 16, 0⟩ : RSection), ⟨.end_, 64, 0⟩].all
        (fun s => s.offset != 32)) = true) :=
  ⟨by decide, by decide, by decide, by decide⟩

/-- C7 amended: a section whose kind is none of MANIFEST, IMAGE or END is
skipped by advancing `16 + size` — the walk continues with the
accumulated section list and manifest tracker unchanged, so unknown
sections are not recorded in the returned list. -/
theorem c7_unknown_skipped (mm : List Nat) (fuel offset : Nat)
    (mf : Option RSection) (acc : List RSection)
    (hfit : offset + 16 ≤ mm.length)
    (h1 : beVal (readBytes mm offset (offset + 8)) ≠ SECTION_IDENTIFIER_MANIFEST)
    (h2 : beVal (readBytes mm offset (offset + 8)) ≠ SECTION_IDENTIFIER_IMAGE)
    (h3 : beVal (readBytes mm offset (offset + 8)) ≠ SECTION_IDENTIFIER_END) :
    enumAux mm (fuel + 1) offset mf acc =
      enumAux mm fuel
        (offset + 16 + beVal (readBytes mm (offset + 8) (offset + 16))) mf acc := by
  have hl1 : (readBytes mm offset (offset + 8)).length = 8 := by
    rw [readBytes_length]
    omega
  have hl2 : (readBytes mm (offset + 8) (offset + 16)).length = 8 := by
    rw [readBytes_length]
    omega
  conv_lhs => unfold enumAux
  rw [if_pos ⟨hl1, hl2⟩]
  dsimp only
  rw [if_neg h1, if_neg h2, if_neg h3]

set_option maxRecDepth 40000 in
theorem c7_witness :
    (32 + 16 ≤ F7.length) ∧
      (beVal (readBytes F7 32 40) ≠ SECTION_IDENTIFIER_MANIFEST) ∧
      (beVal (readBytes F7 32 40) ≠ SECTION_IDENTIFIER_IMAGE) ∧
      (beVal (readBytes F7 32 40) ≠ SECTION_IDENTIFIER_END) ∧
      enumAux F7 (10 + 1) 32 (some ⟨.manifest, 16, 0⟩) [⟨.manifest, 16, 0⟩] =
        enumAux F7 10 (32 + 16 + beVal (readBytes F7 40 48))
          (some ⟨.manifest, 16, 0⟩) [⟨.manifest, 16, 0⟩] :=
  ⟨by decide, by decide, by decide, by decide,
    c7_unknown_skipped F7 10 32 (some ⟨.manifest, 16, 0⟩) [⟨.manifest, 16, 0⟩]
      (by decide) (by decide) (by decide) (by decide)⟩
